import Mathlib

/-!
Shallow embedding of `grabber.py` (GoodLifeToM3U8): a batch pipeline that
parses a `streams.txt` channel list, resolves each channel's playable HLS
URL through the external `yt-dlp` utility, and renders an M3U8 playlist and
an XMLTV EPG file.

The external process boundary (`subprocess.check_output` running `yt-dlp`)
is modelled as an oracle record `Ytdlp`: `g fmt url` is the stdout of
`yt-dlp -g -f <fmt> <url>` (`Except.error` = non-zero exit, i.e.
`CalledProcessError`), and `probeJ url` is the already-JSON-decoded
`formats` array of `yt-dlp -J <url>` (`Except.error` covers both a
non-zero exit and a `json.loads` failure, which the source treats alike).
File writes are modelled by returning the text that would be written;
stderr diagnostics are modelled as returned lists of strings.
-/

set_option autoImplicit false

/-- ASCII whitespace recognised by Python `str.strip()` (the characters
that can occur in this pipeline's inputs). -/
def isPySpace (c : Char) : Bool :=
  c = ' ' || c = '\t' || c = '\n' || c = '\r' || c = '\x0B' || c = '\x0C'

/-- Embeds Python `str.strip()`: drop leading and trailing whitespace. -/
def pyStrip (s : String) : String :=
  String.mk (((s.data.dropWhile isPySpace).reverse.dropWhile isPySpace).reverse)

/-- Embeds Python `str.splitlines()` over the common line terminators
`\n`, `\r\n`, `\r`, `\x0B`, `\x0C` (no trailing empty line for a
terminator-final string). -/
def splitLinesAux : List Char → List Char → List String
  | [], acc => if acc.isEmpty then [] else [String.mk acc.reverse]
  | '\r' :: '\n' :: rest, acc => String.mk acc.reverse :: splitLinesAux rest []
  | c :: rest, acc =>
    if c = '\n' || c = '\r' || c = '\x0B' || c = '\x0C' then
      String.mk acc.reverse :: splitLinesAux rest []
    else
      splitLinesAux rest (c :: acc)

def splitLines (s : String) : List String := splitLinesAux s.data []

/-- `[l.strip() for l in text.splitlines() if l.strip()]` (grabber.py line 9):
strip every line, then keep the non-blank ones. -/
def cleanLines (s : String) : List String :=
  ((splitLines s).map pyStrip).filter (fun l => l != "")

/-- Embeds Python `meta.split("||")`: split on the literal double-pipe
delimiter, non-overlapping, leftmost-first. -/
def splitPipesAux : List Char → List Char → List String
  | [], acc => [String.mk acc.reverse]
  | '|' :: '|' :: rest, acc => String.mk acc.reverse :: splitPipesAux rest []
  | c :: rest, acc => splitPipesAux rest (c :: acc)

def pySplitPipes (s : String) : List String := splitPipesAux s.data []

def listIsPre : List Char → List Char → Bool
  | [], _ => true
  | _ :: _, [] => false
  | a :: as, b :: bs => a = b && listIsPre as bs

def containsAt : List Char → List Char → Bool
  | pat, [] => listIsPre pat []
  | pat, c :: rest => listIsPre pat (c :: rest) || containsAt pat rest

/-- Embeds Python substring containment `pat in s`. -/
def containsSub (s pat : String) : Bool := containsAt pat.data s.data

/-- Embeds Python `s.startswith(pat)`. -/
def pyStartsWith (s pat : String) : Bool := listIsPre pat.data s.data

/-- The dict built by `parse_streams_txt` (grabber.py line 20); the
`resolved_url` key is absent (`none`) until `main` sets it. -/
structure Entry where
  name : String
  id : String
  category : String
  url : String
  resolved_url : Option String := none
deriving Repr, DecidableEq

def warnMsg (meta : String) : String :=
  "[warn] Skipping malformed entry: " ++ meta

/-- One iteration of the parse loop body (grabber.py lines 15-20): split the
metadata line on `||`, strip each field, and keep the entry only when there
are exactly three fields. -/
def mkEntry (meta url : String) : Option Entry :=
  match (pySplitPipes meta).map pyStrip with
  | [n, i, c] => some { name := n, id := i, category := c, url := url }
  | _ => none

/-- The `for i in range(0, len(lines), 2)` loop of `parse_streams_txt`:
lines are consumed two at a time; a missing URL line (odd tail) becomes
`""`.  First component: entries; second: stderr warnings. -/
def parsePairs : List String → List Entry × List String
  | [] => ([], [])
  | [meta] =>
    (match mkEntry meta "" with
     | some e => ([e], [])
     | none => ([], [warnMsg meta]))
  | meta :: url :: rest =>
    match mkEntry meta url with
    | some e => (e :: (parsePairs rest).1, (parsePairs rest).2)
    | none => ((parsePairs rest).1, warnMsg meta :: (parsePairs rest).2)

/-- `parse_streams_txt` (grabber.py lines 8-21) applied to the file text:
returns the entry list and the stderr warning lines. -/
def parse_streams_txt (text : String) : List Entry × List String :=
  parsePairs (cleanLines text)

/-- Specification-side regrouping of the non-blank lines two at a time
(used to state theorems about the index-stepping loop). -/
def chunk2 : List String → List (String × String)
  | [] => []
  | [m] => [(m, "")]
  | m :: u :: rest => (m, u) :: chunk2 rest

/-- A format entry of the `yt-dlp -J` JSON `formats` array; absent keys are
`none`, JSON numbers are modelled as rationals. -/
structure YFormat where
  protocol : Option String := none
  ext : Option String := none
  vcodec : Option String := none
  tbr : Option ℚ := none
  url : Option String := none
  manifest_url : Option String := none
deriving Repr, DecidableEq

/-- The external `yt-dlp` collaborator, as observed through
`subprocess.check_output`. -/
structure Ytdlp where
  g : String → String → Except Unit String
  probeJ : String → Except Unit (List YFormat)

/-- The `candidates` list of format selectors (grabber.py lines 31-35). -/
def hlsCandidates : List String :=
  ["best[protocol^=m3u8]", "bv*+ba/b[protocol^=m3u8]/b", "best"]

/-- The per-line HLS test of the direct phase (grabber.py line 45). -/
def isHlsLine (ln : String) : Bool :=
  containsSub ln ".m3u8" || containsSub ln "protocol=hls" || containsSub ln "m3u8"

/-- Lines 44-47: prefer the first line recognised as HLS, otherwise take the
last line.  (`lines` is non-empty whenever the stripped output was
non-empty, so the `""` default of `getLastD` is dead code.) -/
def pickLine (lines : List String) : String :=
  match lines.find? isHlsLine with
  | some ln => ln
  | none => lines.getLastD ""

/-- The `for fmt in candidates` loop (grabber.py lines 36-50).  Returns the
list of format selectors actually passed to `yt-dlp -g` (the invocation
trace) and the result of the first successful strategy, if any.  A
`CalledProcessError` (`Except.error`) or blank output moves to the next
strategy; `_run` strips the raw output (line 24). -/
def directPhase (yt : Ytdlp) (url : String) : List String → List String × Option String
  | [] => ([], none)
  | fmt :: rest =>
    match yt.g fmt url with
    | Except.error _ =>
      (fmt :: (directPhase yt url rest).1, (directPhase yt url rest).2)
    | Except.ok raw =>
      if pyStrip raw = "" then
        (fmt :: (directPhase yt url rest).1, (directPhase yt url rest).2)
      else
        ([fmt], some (pickLine (cleanLines (pyStrip raw))))

/-- A direct-URL strategy "yields nothing": non-zero exit, or blank output. -/
def stratFails : Except Unit String → Bool
  | Except.error _ => true
  | Except.ok raw => pyStrip raw == ""

/-- The HLS filter of the JSON probe (grabber.py line 58). -/
def hlsFormatFilter (f : YFormat) : Bool :=
  pyStartsWith (f.protocol.getD "") "m3u8" || containsSub (f.ext.getD "") "m3u8"

/-- First component of the sort key (line 60):
`0 if f.get("vcodec") not in (None, "none") else 1`. -/
def vcodecKey (f : YFormat) : Nat :=
  match f.vcodec with
  | none => 1
  | some v => if v = "none" then 1 else 0

/-- Second component of the sort key (line 60): `f.get("tbr") or 0`. -/
def tbrKey (f : YFormat) : ℚ := f.tbr.getD 0

/-- Strict "must come earlier" order of `hls.sort(key=..., reverse=True)`:
with `reverse=True` the element with the lexicographically larger key tuple
comes first. -/
def fmtKeyGt (a b : YFormat) : Bool :=
  decide (vcodecKey b < vcodecKey a ∨ (vcodecKey a = vcodecKey b ∧ tbrKey b < tbrKey a))

def insertDesc (a : YFormat) : List YFormat → List YFormat
  | [] => [a]
  | b :: bs => if fmtKeyGt a b then a :: b :: bs else b :: insertDesc a bs

/-- Embeds `list.sort(key=..., reverse=True)`: a stable sort placing larger
key tuples first (stable insertion sort; Python's sort is also stable, and
stable sorts for the same strict order agree). -/
def pySortDesc (l : List YFormat) : List YFormat :=
  l.foldl (fun acc f => insertDesc f acc) []

/-- The `for f in hls` loop (lines 61-64): first format offering
`f.get("url") or f.get("manifest_url")` non-empty wins; otherwise the probe
falls through to `return ""`. -/
def firstUsableUrl : List YFormat → String
  | [] => ""
  | f :: rest =>
    if (f.url.getD "") ≠ "" then f.url.getD ""
    else if (f.manifest_url.getD "") ≠ "" then f.manifest_url.getD ""
    else firstUsableUrl rest

/-- The structured metadata probe (grabber.py lines 52-66): any exception
(non-zero exit or JSON decode failure, folded into `Except.error`) yields
`""`. -/
def jsonProbe (yt : Ytdlp) (url : String) : String :=
  match yt.probeJ url with
  | Except.error _ => ""
  | Except.ok fmts => firstUsableUrl (pySortDesc (fmts.filter hlsFormatFilter))

/-- `get_stream_url_with_ytdlp` (grabber.py lines 26-68). -/
def get_stream_url_with_ytdlp (yt : Ytdlp) (url : String) : String :=
  match (directPhase yt url hlsCandidates).2 with
  | some r => r
  | none => jsonProbe yt url

/-- `e["name"].replace("\n", " ")` (grabber.py line 78). -/
def pyReplaceNlSpace (s : String) : String :=
  String.mk (s.data.map (fun c => if c = '\n' then ' ' else c))

def cleanName (s : String) : String := pyStrip (pyReplaceNlSpace s)

def noUrlMsg (n : String) : String := "[error] No playable URL for: " ++ n

/-- The `#EXTINF` directive of grabber.py line 82. -/
def extinfLine (e : Entry) : String :=
  "#EXTINF:-1 tvg-id=\"" ++ pyStrip e.id ++ "\" tvg-name=\"" ++ cleanName e.name
    ++ "\" group-title=\"" ++ pyStrip e.category ++ "\"," ++ cleanName e.name

/-- The loop body of `write_m3u8` (grabber.py lines 72-83): skip and warn
when `e.get("resolved_url") or ""` is empty, else append the directive and
the resolved URL. -/
def m3u8Step (acc : List String × List String) (e : Entry) : List String × List String :=
  if e.resolved_url.getD "" = "" then (acc.1, acc.2 ++ [noUrlMsg e.name])
  else (acc.1 ++ [extinfLine e, e.resolved_url.getD ""], acc.2)

/-- `write_m3u8` (grabber.py lines 70-84): first component is the file text
that gets written, second the stderr diagnostics. -/
def write_m3u8 (entries : List Entry) : String × List String :=
  (String.intercalate "\n" (entries.foldl m3u8Step (["#EXTM3U"], [])).1 ++ "\n",
   (entries.foldl m3u8Step (["#EXTM3U"], [])).2)

/-- Proleptic-Gregorian leap-year test (as used by `datetime`). -/
def isLeap (y : Nat) : Bool := (y % 4 == 0 && y % 100 != 0) || y % 400 == 0

def daysInYear (y : Nat) : Nat := if isLeap y then 366 else 365

/-- Walk years forward from the epoch; fuel-driven so the definition is
structural (any fuel above the day count gives the fixed point). -/
def yearRemFuel : Nat → Nat → Nat → Nat × Nat
  | 0, y, rem => (y, rem)
  | fuel + 1, y, rem =>
    if rem < daysInYear y then (y, rem)
    else yearRemFuel fuel (y + 1) (rem - daysInYear y)

def yearRem (y rem : Nat) : Nat × Nat := yearRemFuel (rem + 1) y rem

def monthLengths (leap : Bool) : List Nat :=
  [31, if leap then 29 else 28, 31, 30, 31, 30, 31, 31, 30, 31, 30, 31]

/-- Month (1-based) and day-of-month (1-based) from a day-of-year. -/
def monthDayFromDoy : List Nat → Nat → Nat → Nat × Nat
  | [], m, doy => (m, doy + 1)
  | l :: rest, m, doy =>
    if doy < l then (m, doy + 1) else monthDayFromDoy rest (m + 1) (doy - l)

/-- UTC calendar fields from a Unix timestamp in seconds, as
`datetime.now(timezone.utc)` exposes them. -/
def civilYear (t : Nat) : Nat := (yearRem 1970 (t / 86400)).1

def civilDoy (t : Nat) : Nat := (yearRem 1970 (t / 86400)).2

def civilMonth (t : Nat) : Nat :=
  (monthDayFromDoy (monthLengths (isLeap (civilYear t))) 1 (civilDoy t)).1

def civilDay (t : Nat) : Nat :=
  (monthDayFromDoy (monthLengths (isLeap (civilYear t))) 1 (civilDoy t)).2

/-- `%02d`-style zero padding (out-of-range fallback mirrors `strftime`,
which prints all digits). -/
def pad2L (n : Nat) : List Char :=
  if n < 100 then [Nat.digitChar (n / 10), Nat.digitChar (n % 10)]
  else (Nat.repr n).data

def pad4L (n : Nat) : List Char :=
  if n < 10000 then
    [Nat.digitChar (n / 1000), Nat.digitChar (n / 100 % 10),
     Nat.digitChar (n / 10 % 10), Nat.digitChar (n % 10)]
  else (Nat.repr n).data

/-- `dt.strftime("%Y%m%d%H%M%S +0000")` on the UTC datetime of timestamp
`t` (grabber.py line 89). -/
def fmtTimeL (t : Nat) : List Char :=
  pad4L (civilYear t) ++ pad2L (civilMonth t) ++ pad2L (civilDay t)
    ++ pad2L (t % 86400 / 3600) ++ pad2L (t % 86400 % 3600 / 60)
    ++ pad2L (t % 86400 % 60) ++ (" +0000").data

def fmtTime (t : Nat) : String := String.mk (fmtTimeL t)

/-- The spec's `YYYYMMDDHHMMSS +0000` shape: 14 digits then the literal
UTC offset. -/
def timeShape (s : String) : Bool :=
  s.data.length = 20 && (s.data.take 14).all Char.isDigit
    && s.data.drop 14 == (" +0000").data

/-- The seven lines the EPG loop body appends for one entry
(grabber.py lines 94-100): one channel block, then one programme block. -/
def epgLines (nowS stopS : String) (e : Entry) : List String :=
  [ "  <channel id=\"" ++ pyStrip e.id ++ "\">",
    "    <display-name>" ++ pyStrip e.name ++ "</display-name>",
    "  </channel>",
    "  <programme start=\"" ++ nowS ++ "\" stop=\"" ++ stopS ++ "\" channel=\""
      ++ pyStrip e.id ++ "\">",
    "    <title>" ++ pyStrip e.name ++ " (Live)</title>",
    "    <desc>Auto-generated EPG slot for a continuous live stream.</desc>",
    "  </programme>" ]

def epgHeader : List String :=
  ["<?xml version=\"1.0\" encoding=\"UTF-8\"?>",
   "<tv generator-info-name=\"GoodLifeToM3U8\">"]

/-- `write_epg` (grabber.py lines 86-102), with `t` the Unix timestamp of
`datetime.now(timezone.utc)`; `stop = now + timedelta(hours=24)` is
`t + 86400` seconds. -/
def write_epg (t : Nat) (entries : List Entry) : String :=
  let parts := entries.foldl
    (fun acc e => acc ++ epgLines (fmtTime t) (fmtTime (t + 86400)) e) epgHeader
  String.intercalate "\n" (parts ++ ["</tv>"]) ++ "\n"

/-- The resolution step of `main`'s loop (grabber.py lines 113-124): a blank
source URL is skipped; a blank resolver answer leaves the entry unresolved. -/
def resolveEntry (yt : Ytdlp) (e : Entry) : Entry :=
  if e.url = "" then e
  else if get_stream_url_with_ytdlp yt e.url = "" then e
  else { e with resolved_url := some (get_stream_url_with_ytdlp yt e.url) }

/-- Observable outcome of one run: the exit status and the contents of the
two output files (`none` = the file was never written). -/
structure RunResult where
  exitCode : Nat
  m3u8_out : Option String
  epg_out : Option String
deriving Repr, DecidableEq

/-- `main` (grabber.py lines 104-133; Lean reserves the name `main`, hence
`mainRun`).  `fileExists` models `streams_file.exists()`, `text` its
content, `t` the run's UTC timestamp.  `any_ok` of the loop equals "some
mapped entry carries a resolved_url". -/
def mainRun (fileExists : Bool) (text : String) (yt : Ytdlp) (t : Nat) : RunResult :=
  if fileExists = false then { exitCode := 1, m3u8_out := none, epg_out := none }
  else if (parse_streams_txt text).1.isEmpty then
    { exitCode := 1, m3u8_out := none, epg_out := none }
  else
    { exitCode :=
        if ((parse_streams_txt text).1.map (resolveEntry yt)).any
             (fun e => e.resolved_url.isSome) then 0 else 2,
      m3u8_out := some (write_m3u8 ((parse_streams_txt text).1.map (resolveEntry yt))).1,
      epg_out := some (write_epg t ((parse_streams_txt text).1.map (resolveEntry yt))) }

/-- Sample oracle: every `yt-dlp` invocation exits non-zero. -/
def ytFail : Ytdlp := { g := fun _ _ => Except.error (), probeJ := fun _ => Except.error () }

/-- Sample oracle: `-g` fails under the first selector and answers under the
second; the probe fails. -/
def ytStrat2 : Ytdlp :=
  { g := fun fmt _ =>
      if fmt = "bv*+ba/b[protocol^=m3u8]/b" then Except.ok "http://cdn.example/live.m3u8"
      else Except.error (),
    probeJ := fun _ => Except.error () }

/-- Sample oracle: every `-g` invocation prints one direct HLS URL. -/
def ytOk : Ytdlp :=
  { g := fun _ _ => Except.ok "http://cdn.example/ch1.m3u8",
    probeJ := fun _ => Except.error () }

/-- Probe format entry with a video codec and the higher bitrate. -/
def fmtA : YFormat :=
  { protocol := some "m3u8", ext := some "mp4", vcodec := some "avc1",
    tbr := some 100, url := some "http://a.m3u8" }

/-- Probe format entry with `vcodec = "none"` and the lower bitrate. -/
def fmtB : YFormat :=
  { protocol := some "m3u8", ext := some "mp4", vcodec := some "none",
    tbr := some 50, url := some "http://b.m3u8" }

/-- Sample oracle driving the JSON probe: direct strategies all exit
non-zero, and the manifest holds `fmtA` then `fmtB`. -/
def ytProbeAB : Ytdlp :=
  { g := fun _ _ => Except.error (), probeJ := fun _ => Except.ok [fmtA, fmtB] }

/-- The spec's worked example record, with the stub resolver's answer. -/
def mychanEntry : Entry :=
  { name := "MyChan", id := "ch1", category := "News",
    url := "http://example.com/live", resolved_url := some "http://cdn.example/ch1.m3u8" }

/-! ## Helper lemmas about the Loader -/

theorem parsePairs_eq : ∀ ls : List String,
    parsePairs ls
      = ((chunk2 ls).filterMap (fun p => mkEntry p.1 p.2),
         (chunk2 ls).filterMap
           (fun p => if (mkEntry p.1 p.2).isNone then some (warnMsg p.1) else none))
  | [] => rfl
  | [m] => by
    simp only [parsePairs, chunk2, List.filterMap_cons, List.filterMap_nil]
    cases h : mkEntry m "" <;> simp [h]
  | m :: u :: rest => by
    have ih := parsePairs_eq rest
    simp only [parsePairs, chunk2, List.filterMap_cons, ih]
    cases h : mkEntry m u <;> simp [h]

theorem mkEntry_isNone_iff (m u : String) :
    (mkEntry m u).isNone = true ↔ (pySplitPipes m).length ≠ 3 := by
  have hlen : (pySplitPipes m).length = ((pySplitPipes m).map pyStrip).length :=
    (List.length_map _ _).symm
  rcases h : (pySplitPipes m).map pyStrip with _ | ⟨a, _ | ⟨b, _ | ⟨c, _ | ⟨d, t⟩⟩⟩⟩ <;>
    rw [h] at hlen <;> simp [mkEntry, h, hlen]

theorem filterMap_entry_warn_length : ∀ ps : List (String × String),
    (ps.filterMap (fun p => mkEntry p.1 p.2)).length
      + (ps.filterMap
          (fun p => if (mkEntry p.1 p.2).isNone then some (warnMsg p.1) else none)).length
      = ps.length
  | [] => rfl
  | p :: ps => by
    have ih := filterMap_entry_warn_length ps
    cases h : mkEntry p.1 p.2 <;> simp [List.filterMap_cons, h] at ih ⊢ <;> omega

theorem filterMap_congr' {α β : Type} (f g : α → Option β) :
    ∀ l : List α, (∀ a ∈ l, f a = g a) → l.filterMap f = l.filterMap g
  | [], _ => rfl
  | a :: l, h => by
    have ih := filterMap_congr' f g l (fun x hx => h x (List.mem_cons_of_mem _ hx))
    simp only [List.filterMap_cons, h a (List.mem_cons_self _ _), ih]

theorem chunk2_odd_last : ∀ ls : List String, ls.length % 2 = 1 →
    ∀ m, ls.getLast? = some m → ∃ ps, chunk2 ls = ps ++ [(m, "")]
  | [], h, _, _ => by simp at h
  | [m'], _, m, hm => by
    refine ⟨[], ?_⟩
    simp only [List.getLast?_singleton, Option.some.injEq] at hm
    simp [chunk2, hm]
  | m' :: u :: rest, h, m, hm => by
    have hrlen : rest.length % 2 = 1 := by
      simp only [List.length_cons] at h; omega
    have hrne : rest ≠ [] := by
      intro hr; rw [hr] at hrlen; simp at hrlen
    have hm' : rest.getLast? = some m := by
      rcases rest with _ | ⟨r, rest'⟩
      · exact absurd rfl hrne
      · rw [List.getLast?_cons_cons, List.getLast?_cons_cons] at hm; exact hm
    obtain ⟨ps, hps⟩ := chunk2_odd_last rest hrlen m hm'
    exact ⟨(m', u) :: ps, by simp [chunk2, hps]⟩

/-! ## Loader claims -/

/-- C2 (counterexample): the Loader does NOT guarantee non-empty `name`,
`id`, `category`.  The metadata line `"||||"` splits into exactly three
fields, all empty, and survives as a record with empty name, id and
category. -/
theorem c2_counterexample :
    (parse_streams_txt "||||").1
      = [{ name := "", id := "", category := "", url := "" }]
    ∧ ¬ (∀ e ∈ (parse_streams_txt "||||").1,
          e.name ≠ "" ∧ e.id ≠ "" ∧ e.category ≠ "") := by
  constructor
  · decide
  · intro h
    exact (h { name := "", id := "", category := "", url := "" } (by decide)).1 rfl

/-- C2 (amended): a line-pair is dropped, with exactly one diagnostic, iff
its metadata line does not split into exactly three double-pipe-separated
fields; every pair yields either one record or one diagnostic (the stripped
fields of a surviving record may be empty). -/
theorem c2_malformed_dropped (text : String) :
    (parse_streams_txt text).2
      = (chunk2 (cleanLines text)).filterMap
          (fun p => if (pySplitPipes p.1).length ≠ 3 then some (warnMsg p.1) else none)
  ∧ (parse_streams_txt text).1.length + (parse_streams_txt text).2.length
      = (chunk2 (cleanLines text)).length := by
  have hp := parsePairs_eq (cleanLines text)
  constructor
  · calc (parse_streams_txt text).2
        = (chunk2 (cleanLines text)).filterMap
            (fun p => if (mkEntry p.1 p.2).isNone then some (warnMsg p.1) else none) :=
          congrArg Prod.snd hp
      _ = (chunk2 (cleanLines text)).filterMap
            (fun p => if (pySplitPipes p.1).length ≠ 3 then some (warnMsg p.1) else none) := by
          apply filterMap_congr'
          intro p _
          by_cases h3 : (pySplitPipes p.1).length = 3
          · have hN : (mkEntry p.1 p.2).isNone = false := by
              cases hN : (mkEntry p.1 p.2).isNone
              · rfl
              · exact absurd ((mkEntry_isNone_iff _ _).1 hN) (by simp [h3])
            simp [hN, h3]
          · have hN : (mkEntry p.1 p.2).isNone = true := (mkEntry_isNone_iff _ _).2 h3
            simp [hN, h3]
  · have h1 := congrArg Prod.fst hp
    have h2 := congrArg Prod.snd hp
    rw [show (parse_streams_txt text).1 = _ from h1, show (parse_streams_txt text).2 = _ from h2]
    exact filterMap_entry_warn_length _

/-- C8: after blank-line removal the remaining lines are consumed two at a
time, and a metadata line splitting into exactly three `||`-fields, paired
with its URL line, yields exactly one record whose fields are the stripped
input fields. -/
theorem c8_loader (text : String) :
    (parse_streams_txt text).1
      = (chunk2 (cleanLines text)).filterMap (fun p => mkEntry p.1 p.2)
  ∧ (∀ meta url n i c, (pySplitPipes meta).map pyStrip = [n, i, c] →
      mkEntry meta url = some { name := n, id := i, category := c, url := url }) := by
  refine ⟨congrArg Prod.fst (parsePairs_eq (cleanLines text)), ?_⟩
  intro meta url n i c h
  unfold mkEntry
  rw [h]

/-- C8 witness: the spec's worked example line-pair. -/
theorem c8_loader_witness :
    (parse_streams_txt "MyChan || ch1 || News\nhttp://example.com/live").1
      = [{ name := "MyChan", id := "ch1", category := "News",
           url := "http://example.com/live" }]
    ∧ mkEntry "MyChan || ch1 || News" "http://example.com/live"
        = some { name := "MyChan", id := "ch1", category := "News",
                 url := "http://example.com/live" } := by
  constructor
  · exact (c8_loader "MyChan || ch1 || News\nhttp://example.com/live").1.trans (by decide)
  · exact (c8_loader "").2 "MyChan || ch1 || News" "http://example.com/live"
      "MyChan" "ch1" "News" (by decide)

/-- C9: on an odd number of non-blank lines the Loader is total and the
last metadata line's URL field defaults to `""`: whenever the last line
forms a record at all, that record closes the output and carries an empty
URL. -/
theorem c9_odd_input (text meta : String) (e : Entry)
    (h1 : (cleanLines text).length % 2 = 1)
    (h2 : (cleanLines text).getLast? = some meta)
    (h3 : mkEntry meta "" = some e) :
    (parse_streams_txt text).1.getLast? = some e ∧ e.url = "" := by
  obtain ⟨ps, hps⟩ := chunk2_odd_last (cleanLines text) h1 meta h2
  constructor
  · have h := congrArg Prod.fst (parsePairs_eq (cleanLines text))
    calc (parse_streams_txt text).1.getLast?
        = ((chunk2 (cleanLines text)).filterMap (fun p => mkEntry p.1 p.2)).getLast? := by
          rw [show (parse_streams_txt text).1 = _ from h]
      _ = some e := by
          rw [hps, List.filterMap_append]
          simp [List.filterMap_cons, h3, List.getLast?_concat]
  · unfold mkEntry at h3
    rcases h4 : (pySplitPipes meta).map pyStrip with _ | ⟨a, _ | ⟨b, _ | ⟨c, _ | ⟨d, t⟩⟩⟩⟩ <;>
      rw [h4] at h3
    · exact Option.noConfusion h3
    · exact Option.noConfusion h3
    · exact Option.noConfusion h3
    · rw [← Option.some.inj h3]
    · exact Option.noConfusion h3

/-- C9 witness: a single metadata line with no URL line. -/
theorem c9_odd_input_witness :
    (parse_streams_txt "GoodLife || gl1 || Faith").1.getLast?
      = some { name := "GoodLife", id := "gl1", category := "Faith", url := "" } := by
  exact (c9_odd_input "GoodLife || gl1 || Faith" "GoodLife || gl1 || Faith"
    { name := "GoodLife", id := "gl1", category := "Faith", url := "" }
    (by decide) (by decide) (by decide)).1

/-! ## Resolver claims -/

theorem directPhase_cons_err (yt : Ytdlp) (url fmt : String) (rest : List String)
    (h : yt.g fmt url = Except.error ()) :
    directPhase yt url (fmt :: rest)
      = (fmt :: (directPhase yt url rest).1, (directPhase yt url rest).2) := by
  simp [directPhase, h]

theorem directPhase_cons_blank (yt : Ytdlp) (url fmt raw : String) (rest : List String)
    (h : yt.g fmt url = Except.ok raw) (hb : pyStrip raw = "") :
    directPhase yt url (fmt :: rest)
      = (fmt :: (directPhase yt url rest).1, (directPhase yt url rest).2) := by
  simp [directPhase, h, hb]

theorem directPhase_all_fail (yt : Ytdlp) (url : String) : ∀ fmts : List String,
    (∀ fmt ∈ fmts, stratFails (yt.g fmt url) = true) →
    directPhase yt url fmts = (fmts, none)
  | [], _ => rfl
  | fmt :: rest, h => by
    have ih := directPhase_all_fail yt url rest
      (fun f hf => h f (List.mem_cons_of_mem _ hf))
    have hf := h fmt (List.mem_cons_self _ _)
    cases hg : yt.g fmt url with
    | error e =>
      cases e
      rw [directPhase_cons_err yt url fmt rest hg, ih]
    | ok raw =>
      have hb : pyStrip raw = "" := by
        rw [hg] at hf
        simpa [stratFails] using hf
      rw [directPhase_cons_blank yt url fmt raw rest hg hb, ih]

/-- C3: the Resolver tries the format selectors in their fixed order and
short-circuits on the first success: when strategy 1 yields nothing
(non-zero exit or blank output) and strategy 2 prints non-blank output,
the result is computed from strategy 2's lines, only the first two
selectors are ever passed to the extractor, and within the lines an
HLS-marked line is preferred, else the last line is taken. -/
theorem c3_short_circuit (yt : Ytdlp) (url raw : String)
    (h1 : stratFails (yt.g "best[protocol^=m3u8]" url) = true)
    (h2 : yt.g "bv*+ba/b[protocol^=m3u8]/b" url = Except.ok raw)
    (h3 : pyStrip raw ≠ "") :
    get_stream_url_with_ytdlp yt url = pickLine (cleanLines (pyStrip raw))
  ∧ (directPhase yt url hlsCandidates).1
      = ["best[protocol^=m3u8]", "bv*+ba/b[protocol^=m3u8]/b"]
  ∧ (∀ ln, (cleanLines (pyStrip raw)).find? isHlsLine = some ln →
      get_stream_url_with_ytdlp yt url = ln)
  ∧ ((cleanLines (pyStrip raw)).find? isHlsLine = none →
      get_stream_url_with_ytdlp yt url = (cleanLines (pyStrip raw)).getLastD "") := by
  have hdp : directPhase yt url hlsCandidates
      = (["best[protocol^=m3u8]", "bv*+ba/b[protocol^=m3u8]/b"],
         some (pickLine (cleanLines (pyStrip raw)))) := by
    cases hg : yt.g "best[protocol^=m3u8]" url with
    | error e =>
      cases e
      rw [show hlsCandidates
            = "best[protocol^=m3u8]"
              :: "bv*+ba/b[protocol^=m3u8]/b" :: ["best"] from rfl]
      rw [directPhase_cons_err yt url _ _ hg]
      simp [directPhase, h2, h3]
    | ok raw1 =>
      have hb : pyStrip raw1 = "" := by
        rw [hg] at h1
        simpa [stratFails] using h1
      rw [show hlsCandidates
            = "best[protocol^=m3u8]"
              :: "bv*+ba/b[protocol^=m3u8]/b" :: ["best"] from rfl]
      rw [directPhase_cons_blank yt url _ raw1 _ hg hb]
      simp [directPhase, h2, h3]
  have hres : get_stream_url_with_ytdlp yt url = pickLine (cleanLines (pyStrip raw)) := by
    unfold get_stream_url_with_ytdlp
    rw [hdp]
  refine ⟨hres, by rw [hdp], ?_, ?_⟩
  · intro ln hln
    rw [hres]
    unfold pickLine
    rw [hln]
  · intro hnone
    rw [hres]
    unfold pickLine
    rw [hnone]

/-- C3 witness: an oracle failing under selector 1 and answering under
selector 2. -/
theorem c3_short_circuit_witness :
    get_stream_url_with_ytdlp ytStrat2 "https://youtu.be/live"
      = "http://cdn.example/live.m3u8"
  ∧ (directPhase ytStrat2 "https://youtu.be/live" hlsCandidates).1
      = ["best[protocol^=m3u8]", "bv*+ba/b[protocol^=m3u8]/b"] := by
  have h := c3_short_circuit ytStrat2 "https://youtu.be/live"
    "http://cdn.example/live.m3u8" (by decide) rfl (by decide)
  exact ⟨h.1.trans (by decide), h.2.1⟩

/-- C7: the Resolver is a total function of the oracle (it never raises): a
non-zero exit of the extractor under one strategy just moves the chain to
the next strategy, and when every direct strategy fails (non-zero exit or
blank output) and the JSON probe also produces nothing, the result is the
empty string, with all three selectors having been tried. -/
theorem c7_failure_is_absence (yt : Ytdlp) (url : String) :
    (∀ fmt rest, yt.g fmt url = Except.error () →
      directPhase yt url (fmt :: rest)
        = (fmt :: (directPhase yt url rest).1, (directPhase yt url rest).2))
  ∧ ((∀ fmt ∈ hlsCandidates, stratFails (yt.g fmt url) = true) →
      jsonProbe yt url = "" →
      get_stream_url_with_ytdlp yt url = ""
        ∧ (directPhase yt url hlsCandidates).1 = hlsCandidates) := by
  refine ⟨fun fmt rest h => directPhase_cons_err yt url fmt rest h, ?_⟩
  intro hall hprobe
  have hdp := directPhase_all_fail yt url hlsCandidates hall
  constructor
  · unfold get_stream_url_with_ytdlp
    rw [hdp]
    exact hprobe
  · rw [hdp]

/-- C7 witness: the always-failing oracle. -/
theorem c7_failure_is_absence_witness :
    get_stream_url_with_ytdlp ytFail "https://youtu.be/dead" = ""
  ∧ (directPhase ytFail "https://youtu.be/dead" hlsCandidates).1 = hlsCandidates := by
  exact (c7_failure_is_absence ytFail "https://youtu.be/dead").2 (by decide) (by decide)

/-- C1 (code bug, grabber.py line 60): the JSON probe is claimed (and the
source comment says) to prefer formats *with* a video codec; but
`reverse=True` also reverses the `0/1` vcodec indicator, so formats with
`vcodec` absent or `"none"` are ranked FIRST.  With direct strategies
failing and a manifest holding `fmtA` (vcodec `avc1`, tbr 100, url
`http://a.m3u8`) and `fmtB` (vcodec `"none"`, tbr 50, url `http://b.m3u8`),
the code returns `fmtB`'s URL while the claim requires `fmtA`'s. -/
theorem c1_probe_ranking_eval :
    get_stream_url_with_ytdlp ytProbeAB "https://youtu.be/live" = "http://b.m3u8"
  ∧ pySortDesc [fmtA, fmtB] = [fmtB, fmtA]
  ∧ vcodecKey fmtA = 0
  ∧ vcodecKey fmtB = 1
  ∧ tbrKey fmtB < tbrKey fmtA
  ∧ hlsFormatFilter fmtA = true
  ∧ hlsFormatFilter fmtB = true
  ∧ "http://b.m3u8" ≠ "http://a.m3u8" := by
  decide

/-! ## Renderer helpers -/

theorem foldl_append_eq_flatMap {α β : Type} (f : α → List β) :
    ∀ (es : List α) (P : List β),
      es.foldl (fun acc e => acc ++ f e) P = P ++ es.flatMap f
  | [], P => by simp
  | e :: es, P => by
    rw [List.foldl_cons, foldl_append_eq_flatMap f es, List.flatMap_cons, List.append_assoc]

theorem m3u8_foldl_eq : ∀ (es : List Entry) (L E : List String),
    es.foldl m3u8Step (L, E)
      = (L ++ es.flatMap (fun e =>
           if e.resolved_url.getD "" = "" then []
           else [extinfLine e, e.resolved_url.getD ""]),
         E ++ es.flatMap (fun e =>
           if e.resolved_url.getD "" = "" then [noUrlMsg e.name] else []))
  | [], L, E => by simp
  | e :: es, L, E => by
    rw [List.foldl_cons]
    by_cases h : e.resolved_url.getD "" = ""
    · rw [show m3u8Step (L, E) e = (L, E ++ [noUrlMsg e.name]) from by simp [m3u8Step, h]]
      rw [m3u8_foldl_eq es]
      simp [h, List.flatMap_cons, List.append_assoc]
    · rw [show m3u8Step (L, E) e
            = (L ++ [extinfLine e, e.resolved_url.getD ""], E) from by simp [m3u8Step, h]]
      rw [m3u8_foldl_eq es]
      simp [h, List.flatMap_cons, List.append_assoc]

theorem flatMap_msg_eq_filter : ∀ es : List Entry,
    es.flatMap (fun e => if e.resolved_url.getD "" = "" then [noUrlMsg e.name] else [])
      = (es.filter (fun e => e.resolved_url.getD "" == "")).map (fun e => noUrlMsg e.name)
  | [] => rfl
  | e :: es => by
    by_cases h : e.resolved_url.getD "" = "" <;>
      simp [List.flatMap_cons, List.filter_cons, h, flatMap_msg_eq_filter es]

theorem flatMap_nil_of_all_nil {α β : Type} (f : α → List β) :
    ∀ l : List α, (∀ a ∈ l, f a = []) → l.flatMap f = []
  | [], _ => rfl
  | a :: l, h => by
    rw [List.flatMap_cons, h a (List.mem_cons_self _ _),
      flatMap_nil_of_all_nil f l (fun x hx => h x (List.mem_cons_of_mem _ hx))]
    rfl

theorem write_m3u8_header_only (es : List Entry)
    (h : ∀ e ∈ es, e.resolved_url = none) : (write_m3u8 es).1 = "#EXTM3U\n" := by
  unfold write_m3u8
  rw [m3u8_foldl_eq es ["#EXTM3U"] []]
  rw [flatMap_nil_of_all_nil _ es (fun e he => by simp [h e he])]
  rfl

/-! ## Playlist claim -/

/-- C5: the playlist is the header line followed, for exactly each record
whose resolved URL is non-empty, by the `#EXTINF:-1` directive and the
resolved URL (never the raw source URL); every record without a resolved
URL is omitted and produces one stderr diagnostic.  For records whose
fields are already stripped and newline-free (as all Loader-produced
records are), the directive carries the fields verbatim. -/
theorem c5_playlist (entries : List Entry) :
    (write_m3u8 entries).1
      = String.intercalate "\n" ("#EXTM3U" ::
          entries.flatMap (fun e =>
            if e.resolved_url.getD "" = "" then []
            else [extinfLine e, e.resolved_url.getD ""])) ++ "\n"
  ∧ (write_m3u8 entries).2
      = (entries.filter (fun e => e.resolved_url.getD "" == "")).map
          (fun e => noUrlMsg e.name)
  ∧ (∀ e : Entry, pyStrip e.id = e.id → pyStrip e.category = e.category →
      pyStrip e.name = e.name → '\n' ∉ e.name.data →
      extinfLine e
        = "#EXTINF:-1 tvg-id=\"" ++ e.id ++ "\" tvg-name=\"" ++ e.name
            ++ "\" group-title=\"" ++ e.category ++ "\"," ++ e.name) := by
  refine ⟨?_, ?_, ?_⟩
  · unfold write_m3u8
    rw [m3u8_foldl_eq entries ["#EXTM3U"] []]
    rfl
  · unfold write_m3u8
    rw [m3u8_foldl_eq entries ["#EXTM3U"] []]
    exact flatMap_msg_eq_filter entries
  · intro e hid hcat hname hnl
    have h1 : pyReplaceNlSpace e.name = e.name := by
      unfold pyReplaceNlSpace
      have hmap : e.name.data.map (fun c => if c = '\n' then ' ' else c) = e.name.data := by
        conv_rhs => rw [← List.map_id e.name.data]
        exact List.map_congr_left (fun c hc => by
          have hc' : c ≠ '\n' := fun hcc => hnl (hcc ▸ hc)
          simp [hc'])
      rw [hmap]
    have h2 : cleanName e.name = e.name := by
      unfold cleanName
      rw [h1, hname]
    unfold extinfLine
    rw [h2, hid, hcat]

/-- C5 witness: the spec's worked example. -/
theorem c5_playlist_witness :
    (write_m3u8 [mychanEntry]).1
      = "#EXTM3U\n#EXTINF:-1 tvg-id=\"ch1\" tvg-name=\"MyChan\" group-title=\"News\",MyChan\nhttp://cdn.example/ch1.m3u8\n"
  ∧ (write_m3u8 [mychanEntry]).2 = []
  ∧ extinfLine mychanEntry
      = "#EXTINF:-1 tvg-id=\"ch1\" tvg-name=\"MyChan\" group-title=\"News\",MyChan" := by
  refine ⟨(c5_playlist [mychanEntry]).1.trans (by decide),
    (c5_playlist [mychanEntry]).2.1.trans (by decide), ?_⟩
  have h := (c5_playlist [mychanEntry]).2.2 mychanEntry
    (by decide) (by decide) (by decide) (by decide)
  exact h.trans (by decide)

/-! ## UTC timestamp shape -/

theorem daysInYear_ge (y : Nat) : 365 ≤ daysInYear y := by
  unfold daysInYear; split <;> omega

theorem yearRemFuel_year_bound : ∀ (fuel y rem : Nat),
    365 * (yearRemFuel fuel y rem).1 ≤ 365 * y + rem
  | 0, y, rem => by simp [yearRemFuel]
  | fuel + 1, y, rem => by
    unfold yearRemFuel
    split_ifs with h1
    · simp
    · have ih := yearRemFuel_year_bound fuel (y + 1) (rem - daysInYear y)
      have hd := daysInYear_ge y
      omega

theorem yearRemFuel_rem_bound : ∀ (fuel y rem : Nat), rem < fuel →
    (yearRemFuel fuel y rem).2 < daysInYear (yearRemFuel fuel y rem).1
  | 0, _, _, h => absurd h (by omega)
  | fuel + 1, y, rem, h => by
    unfold yearRemFuel
    split_ifs with h1
    · simpa using h1
    · have hd := daysInYear_ge y
      exact yearRemFuel_rem_bound fuel (y + 1) (rem - daysInYear y) (by omega)

theorem civilYear_lt (t : Nat) (h : t < 253000000000) : civilYear t < 10000 := by
  have hb := yearRemFuel_year_bound (t / 86400 + 1) 1970 (t / 86400)
  unfold civilYear yearRem
  omega

theorem civilDoy_lt (t : Nat) : civilDoy t < daysInYear (civilYear t) := by
  unfold civilDoy civilYear yearRem
  exact yearRemFuel_rem_bound (t / 86400 + 1) 1970 (t / 86400) (by omega)

theorem monthDay_m_le : ∀ (ls : List Nat) (m doy : Nat),
    (monthDayFromDoy ls m doy).1 ≤ m + ls.length
  | [], m, doy => by simp [monthDayFromDoy]
  | l :: ls, m, doy => by
    unfold monthDayFromDoy
    split_ifs with h1
    · simp
    · have ih := monthDay_m_le ls (m + 1) (doy - l)
      simp only [List.length_cons]
      omega

theorem monthDay_d_le : ∀ (ls : List Nat) (m doy : Nat), doy < ls.sum →
    (∀ l ∈ ls, l ≤ 31) → (monthDayFromDoy ls m doy).2 ≤ 31
  | [], _, doy, h, _ => by simp at h
  | l :: ls, m, doy, h, hle => by
    unfold monthDayFromDoy
    split_ifs with h1
    · have := hle l (List.mem_cons_self _ _)
      simp only
      omega
    · exact monthDay_d_le ls (m + 1) (doy - l)
        (by simp only [List.sum_cons] at h; omega)
        (fun x hx => hle x (List.mem_cons_of_mem _ hx))

theorem daysInYear_eq_sum (y : Nat) : daysInYear y = (monthLengths (isLeap y)).sum := by
  unfold daysInYear
  cases h : isLeap y <;> decide

theorem monthLengths_le (b : Bool) : ∀ l ∈ monthLengths b, l ≤ 31 := by
  cases b <;> decide

theorem civilMonth_lt (t : Nat) : civilMonth t < 100 := by
  have hm := monthDay_m_le (monthLengths (isLeap (civilYear t))) 1 (civilDoy t)
  have hlen : (monthLengths (isLeap (civilYear t))).length = 12 := by
    cases isLeap (civilYear t) <;> rfl
  unfold civilMonth
  omega

theorem civilDay_lt (t : Nat) : civilDay t < 100 := by
  have h1 := civilDoy_lt t
  rw [daysInYear_eq_sum] at h1
  have h2 := monthDay_d_le (monthLengths (isLeap (civilYear t))) 1 (civilDoy t) h1
    (monthLengths_le _)
  unfold civilDay
  omega

theorem digitChar_isDigit (n : Nat) (h : n < 10) : (Nat.digitChar n).isDigit = true := by
  interval_cases n <;> decide

theorem pad2L_shape (n : Nat) (h : n < 100) :
    (pad2L n).length = 2 ∧ (pad2L n).all Char.isDigit = true := by
  unfold pad2L
  rw [if_pos h]
  refine ⟨rfl, ?_⟩
  simp [List.all_cons, digitChar_isDigit (n / 10) (by omega),
    digitChar_isDigit (n % 10) (by omega)]

theorem pad4L_shape (n : Nat) (h : n < 10000) :
    (pad4L n).length = 4 ∧ (pad4L n).all Char.isDigit = true := by
  unfold pad4L
  rw [if_pos h]
  refine ⟨rfl, ?_⟩
  simp [List.all_cons, digitChar_isDigit (n / 1000) (by omega),
    digitChar_isDigit (n / 100 % 10) (by omega),
    digitChar_isDigit (n / 10 % 10) (by omega),
    digitChar_isDigit (n % 10) (by omega)]

theorem timeShape_fmtTime (t : Nat) (h : t < 253000000000) :
    timeShape (fmtTime t) = true := by
  obtain ⟨hy1, hy2⟩ := pad4L_shape (civilYear t) (civilYear_lt t h)
  obtain ⟨hm1, hm2⟩ := pad2L_shape (civilMonth t) (civilMonth_lt t)
  obtain ⟨hd1, hd2⟩ := pad2L_shape (civilDay t) (civilDay_lt t)
  obtain ⟨hh1, hh2⟩ := pad2L_shape (t % 86400 / 3600) (by omega)
  obtain ⟨hmi1, hmi2⟩ := pad2L_shape (t % 86400 % 3600 / 60) (by omega)
  obtain ⟨hs1, hs2⟩ := pad2L_shape (t % 86400 % 60) (by omega)
  have hfront : (pad4L (civilYear t) ++ pad2L (civilMonth t) ++ pad2L (civilDay t)
      ++ pad2L (t % 86400 / 3600) ++ pad2L (t % 86400 % 3600 / 60)
      ++ pad2L (t % 86400 % 60)).length = 14 := by
    simp only [List.length_append, hy1, hm1, hd1, hh1, hmi1, hs1]
  have htake : (fmtTimeL t).take 14
      = pad4L (civilYear t) ++ pad2L (civilMonth t) ++ pad2L (civilDay t)
        ++ pad2L (t % 86400 / 3600) ++ pad2L (t % 86400 % 3600 / 60)
        ++ pad2L (t % 86400 % 60) := by
    unfold fmtTimeL
    exact List.take_left' hfront
  have hdrop : (fmtTimeL t).drop 14 = (" +0000").data := by
    unfold fmtTimeL
    exact List.drop_left' hfront
  have hlen : (fmtTimeL t).length = 20 := by
    unfold fmtTimeL
    simp only [List.length_append, hy1, hm1, hd1, hh1, hmi1, hs1]
    rfl
  have hall : ((fmtTimeL t).take 14).all Char.isDigit = true := by
    rw [htake]
    simp [List.all_append, hy2, hm2, hd2, hh2, hmi2, hs2]
  unfold timeShape
  rw [show (fmtTime t).data = fmtTimeL t from rfl]
  simp [hlen, hdrop, hall]

/-! ## EPG claim -/

/-- C6: the EPG document is the XML header followed by, for exactly each
input record (resolved or not), one seven-line block holding one
`<channel>` element and one `<programme>` element; the programme window is
`[now, now + 24h]` (`t` to `t + 86400` seconds), both endpoints rendered by
the UTC formatter, whose output for any realistic timestamp is 14 digits
followed by the literal ` +0000`. -/
theorem c6_epg (t : Nat) (entries : List Entry) :
    write_epg t entries
      = String.intercalate "\n"
          (epgHeader ++ entries.flatMap (epgLines (fmtTime t) (fmtTime (t + 86400)))
            ++ ["</tv>"]) ++ "\n"
  ∧ (∀ a b e, (epgLines a b e).length = 7
      ∧ (epgLines a b e).headD "" = "  <channel id=\"" ++ pyStrip e.id ++ "\">"
      ∧ (epgLines a b e).getD 3 ""
          = "  <programme start=\"" ++ a ++ "\" stop=\"" ++ b ++ "\" channel=\""
              ++ pyStrip e.id ++ "\">")
  ∧ (t + 86400 < 253000000000 →
      timeShape (fmtTime t) = true ∧ timeShape (fmtTime (t + 86400)) = true) := by
  refine ⟨?_, fun a b e => ⟨rfl, rfl, rfl⟩, fun h => ⟨?_, ?_⟩⟩
  · unfold write_epg
    rw [foldl_append_eq_flatMap (epgLines (fmtTime t) (fmtTime (t + 86400))) entries epgHeader]
  · exact timeShape_fmtTime t (by omega)
  · exact timeShape_fmtTime (t + 86400) (by omega)

/-- C6 witness: the epoch timestamp. -/
theorem c6_epg_witness :
    (0 : Nat) + 86400 < 253000000000
  ∧ timeShape (fmtTime 0) = true ∧ timeShape (fmtTime (0 + 86400)) = true := by
  refine ⟨by decide, ?_⟩
  exact (c6_epg 0 []).2.2 (by decide)

/-! ## Process exit-code claims -/

/-- C4: exit 1 when the input file is missing, or when parsing yields no
record (and then neither output file is written); exit 2 when there is at
least one record but none resolves (files are still produced — see C10);
exit 0 when some record resolves, with both files written. -/
theorem c4_exit_codes (text : String) (yt : Ytdlp) (t : Nat) :
    mainRun false text yt t = { exitCode := 1, m3u8_out := none, epg_out := none }
  ∧ ((parse_streams_txt text).1 = [] →
      mainRun true text yt t = { exitCode := 1, m3u8_out := none, epg_out := none })
  ∧ ((parse_streams_txt text).1 ≠ [] →
      (∀ e ∈ (parse_streams_txt text).1, (resolveEntry yt e).resolved_url = none) →
      (mainRun true text yt t).exitCode = 2
        ∧ (mainRun true text yt t).m3u8_out.isSome = true
        ∧ (mainRun true text yt t).epg_out.isSome = true)
  ∧ ((∃ e ∈ (parse_streams_txt text).1, (resolveEntry yt e).resolved_url.isSome = true) →
      (mainRun true text yt t).exitCode = 0
        ∧ (mainRun true text yt t).m3u8_out.isSome = true
        ∧ (mainRun true text yt t).epg_out.isSome = true) := by
  refine ⟨rfl, ?_, ?_, ?_⟩
  · intro h
    simp [mainRun, h]
  · intro h1 h2
    have hne : (parse_streams_txt text).1.isEmpty = false := by
      rcases hL : (parse_streams_txt text).1 with _ | ⟨x, xs⟩
      · exact absurd hL h1
      · rfl
    have hany : ((parse_streams_txt text).1.map (resolveEntry yt)).any
        (fun e => e.resolved_url.isSome) = false := by
      rw [List.any_map, List.any_eq_false]
      intro e he
      simp [Function.comp, h2 e he]
    simp [mainRun, hne, hany]
  · rintro ⟨e, he, hsome⟩
    have hne : (parse_streams_txt text).1.isEmpty = false := by
      rcases hL : (parse_streams_txt text).1 with _ | ⟨x, xs⟩
      · rw [hL] at he; exact absurd he (by simp)
      · rfl
    have hany : ((parse_streams_txt text).1.map (resolveEntry yt)).any
        (fun e => e.resolved_url.isSome) = true := by
      rw [List.any_map, List.any_eq_true]
      exact ⟨e, he, hsome⟩
    simp [mainRun, hne, hany]

/-- C4 witness: one valid record; the always-failing and always-succeeding
oracles drive the exit-2 and exit-0 paths, and `""`/a missing file drive
the exit-1 paths. -/
theorem c4_exit_codes_witness :
    mainRun false "" ytFail 0 = { exitCode := 1, m3u8_out := none, epg_out := none }
  ∧ mainRun true "" ytFail 0 = { exitCode := 1, m3u8_out := none, epg_out := none }
  ∧ (mainRun true "A || b || c\nhttp://u" ytFail 0).exitCode = 2
  ∧ (mainRun true "A || b || c\nhttp://u" ytOk 0).exitCode = 0 := by
  refine ⟨(c4_exit_codes "" ytFail 0).1, (c4_exit_codes "" ytFail 0).2.1 (by decide), ?_, ?_⟩
  · exact ((c4_exit_codes "A || b || c\nhttp://u" ytFail 0).2.2.1
      (by decide) (by decide)).1
  · exact ((c4_exit_codes "A || b || c\nhttp://u" ytOk 0).2.2.2
      ⟨{ name := "A", id := "b", category := "c", url := "http://u" },
        by decide, by decide⟩).1

/-- C10: whenever the input parses to at least one record and every record
fails to resolve, both output files are still produced before the non-zero
exit: the playlist is exactly the header line, and the EPG holds its full
per-record channel/programme blocks, one block list per input record. -/
theorem c10_failure_still_writes (text : String) (yt : Ytdlp) (t : Nat)
    (h1 : (parse_streams_txt text).1 ≠ [])
    (h2 : ∀ e ∈ (parse_streams_txt text).1, (resolveEntry yt e).resolved_url = none) :
    mainRun true text yt t
      = { exitCode := 2,
          m3u8_out := some "#EXTM3U\n",
          epg_out := some (String.intercalate "\n"
            (epgHeader
              ++ ((parse_streams_txt text).1.map (resolveEntry yt)).flatMap
                  (epgLines (fmtTime t) (fmtTime (t + 86400)))
              ++ ["</tv>"]) ++ "\n") }
  ∧ ((parse_streams_txt text).1.map (resolveEntry yt)).length
      = (parse_streams_txt text).1.length := by
  have hne : (parse_streams_txt text).1.isEmpty = false := by
    rcases hL : (parse_streams_txt text).1 with _ | ⟨x, xs⟩
    · exact absurd hL h1
    · rfl
  have hall : ∀ e ∈ (parse_streams_txt text).1.map (resolveEntry yt),
      e.resolved_url = none := by
    intro e he
    obtain ⟨a, ha, rfl⟩ := List.mem_map.1 he
    exact h2 a ha
  have hany : ((parse_streams_txt text).1.map (resolveEntry yt)).any
      (fun e => e.resolved_url.isSome) = false := by
    rw [List.any_eq_false]
    intro e he
    simp [hall e he]
  have hm3u8 := write_m3u8_header_only _ hall
  have hepg : write_epg t ((parse_streams_txt text).1.map (resolveEntry yt))
      = String.intercalate "\n"
          (epgHeader
            ++ ((parse_streams_txt text).1.map (resolveEntry yt)).flatMap
                (epgLines (fmtTime t) (fmtTime (t + 86400)))
            ++ ["</tv>"]) ++ "\n" := by
    unfold write_epg
    rw [foldl_append_eq_flatMap (epgLines (fmtTime t) (fmtTime (t + 86400))) _ epgHeader]
  refine ⟨?_, List.length_map _ _⟩
  simp [mainRun, hne, hany, hm3u8, hepg]

/-- C10 witness: one record, always-failing oracle, run at the epoch. -/
theorem c10_failure_still_writes_witness :
    mainRun true "A || b || c\nhttp://u" ytFail 0
      = { exitCode := 2,
          m3u8_out := some "#EXTM3U\n",
          epg_out := some (String.intercalate "\n"
            (epgHeader
              ++ ((parse_streams_txt "A || b || c\nhttp://u").1.map (resolveEntry ytFail)).flatMap
                  (epgLines (fmtTime 0) (fmtTime (0 + 86400)))
              ++ ["</tv>"]) ++ "\n") } := by
  exact (c10_failure_still_writes "A || b || c\nhttp://u" ytFail 0
    (by decide) (by decide)).1
